import Mathlib

/-!
Shallow embedding of the Deribit WebSocket tester
(`websocket_tester.py`, class `DeribitWebSocketTester`).

Machine reals of the source (Python floats for timestamps, delays and
prices) are modelled as rationals; wall-clock time is passed explicitly.
The asynchronous receive loops are modelled as folds over an explicit
list of per-iteration events (a decoded message, a per-receive timeout,
a transport-level connection close, or a decode/processing exception):
the event list stands for the sequence of iterations that occur before
the duration bound or stop signal ends the loop.
-/

/-- Payload of a channel notification, `data['params']['data']` in the
source: the optional embedded producer timestamp (milliseconds) and the
optional numeric fields read by the tick-analysis loop. Absent JSON keys
are `none`. -/
structure WsPayload where
  timestamp : Option ℚ
  last_price : Option ℚ
  price : Option ℚ
  volume : Option ℚ
  best_bid_price : Option ℚ
  best_ask_price : Option ℚ
deriving DecidableEq

/-- The `params` object of a decoded message. `channel` is `none` when
the key `'channel'` is absent, `data` is `none` when the key `'data'`
is absent. -/
structure WsParams where
  channel : Option String
  data : Option WsPayload
deriving DecidableEq

/-- One decoded inbound message (`data = json.loads(message)`): optional
`method`, optional `params`, and the length `len(str(data))` of its
textual form, used by the tick loop as `data_size`. -/
structure WsData where
  method : Option String
  params : Option WsParams
  strLen : ℕ
deriving DecidableEq

/-- One iteration of a receive loop, as seen by the loop body:
a successfully received and decoded message together with its local
receive time (seconds), an `asyncio.TimeoutError` on the 1-second
receive, a `websockets.exceptions.ConnectionClosed`, or any other
exception while receiving or decoding a single message. -/
inductive RecvEvent where
  | msg (d : WsData) (receiveTime : ℚ)
  | timeout
  | closed
  | decodeError
deriving DecidableEq

/-- Embeds the per-message latency computation of `latency_test`
(lines 216-223): when `'params'`, `'params.data'` and a producer
`timestamp` (milliseconds) are all present, the latency is
`(receive_time - timestamp/1000) * 1000`, retained only when
`latency > 0 and latency < 10000`; otherwise no sample. -/
def latencySample (d : WsData) (receiveTime : ℚ) : Option ℚ :=
  match d.params with
  | none => none
  | some p =>
    match p.data with
    | none => none
    | some pl =>
      match pl.timestamp with
      | none => none
      | some ts =>
        let latency := (receiveTime - ts / 1000) * 1000
        if 0 < latency ∧ latency < 10000 then some latency else none

/-- A message carrying producer timestamp 0 ms, received at local time
10 s: useful concrete input for the latency boundary. -/
def msgWithTs0 : WsData :=
  ⟨none, some ⟨none, some ⟨some 0, none, none, none, none, none⟩⟩, 0⟩

/-- C1 counterexample: at producer timestamp 0 ms and receive time 10 s
the computed delay is exactly (10 - 0/1000) * 1000 = 10000 ms, which the
claim says is accepted (0 < 10000 ≤ 10000), but `latency_test` filters
with the strict comparison `latency < 10000` and discards it. -/
theorem C1_counterexample :
    latencySample msgWithTs0 10 = none ∧
    (10 - 0 / 1000 : ℚ) * 1000 = 10000 ∧ (0 : ℚ) < 10000 ∧ (10000 : ℚ) ≤ 10000 := by
  refine ⟨?_, by norm_num, by norm_num, le_refl _⟩
  norm_num [latencySample, msgWithTs0]

/-- C1 (amended): a latency sample is retained iff `0 < d < 10000` ms:
every retained sample lies strictly inside the range; a message with no
producer timestamp yields no sample; at the boundaries, d = 1 and
d = 9999 are accepted while d = 0, d = 10000 and d = 10001 are
rejected. -/
theorem C1_latency_filter :
    (∀ (d : WsData) (rt v : ℚ), latencySample d rt = some v → 0 < v ∧ v < 10000) ∧
    (∀ (d : WsData) (rt : ℚ),
        ((d.params.bind fun p => p.data).bind fun pl => pl.timestamp) = none →
        latencySample d rt = none) ∧
    latencySample msgWithTs0 (1 / 1000) = some 1 ∧
    latencySample msgWithTs0 (9999 / 1000) = some 9999 ∧
    latencySample msgWithTs0 0 = none ∧
    latencySample msgWithTs0 10 = none ∧
    latencySample msgWithTs0 (10001 / 1000) = none := by
  refine ⟨?_, ?_, ?_, ?_, ?_, ?_, ?_⟩
  · intro d rt v h
    unfold latencySample at h
    rcases d with ⟨m, p, n⟩
    rcases p with _ | p
    · simp at h
    rcases p with ⟨c, pl⟩
    rcases pl with _ | pl
    · simp at h
    rcases pl with ⟨ts, a, b, vo, bb, ba⟩
    rcases ts with _ | ts
    · simp at h
    simp only [] at h
    split at h
    · rename_i hc
      cases h
      exact hc
    · cases h
  · intro d rt h
    unfold latencySample
    rcases d with ⟨m, p, n⟩
    rcases p with _ | p
    · rfl
    rcases p with ⟨c, pl⟩
    rcases pl with _ | pl
    · rfl
    rcases pl with ⟨ts, a, b, vo, bb, ba⟩
    rcases ts with _ | ts
    · rfl
    · simp at h
  · norm_num [latencySample, msgWithTs0]
  · norm_num [latencySample, msgWithTs0]
  · norm_num [latencySample, msgWithTs0]
  · norm_num [latencySample, msgWithTs0]
  · norm_num [latencySample, msgWithTs0]

/-- C1 witness: the general retained-range direction applied to the
concrete accepted sample of delay 1 ms. -/
theorem C1_latency_filter_witness : (0 : ℚ) < 1 ∧ (1 : ℚ) < 10000 :=
  C1_latency_filter.1 msgWithTs0 (1 / 1000) 1 (by norm_num [latencySample, msgWithTs0])

/-- The stored message record, dataclass `WebSocketMessage` minus the
raw payload: local receive timestamp, `data.get('method', 'unknown')`,
`data.get('params', {}).get('channel', 'unknown')` and the per-message
latency (computed without any plausibility filter in
`single_connection_test`, lines 134-138). -/
structure WSMessage where
  timestamp : ℚ
  message_type : String
  channel : String
  latency : Option ℚ
deriving DecidableEq

/-- State touched by one iteration of the `single_connection_test`
receive loop: the session-local counter `connection_messages` and the
two instance fields it writes, the shared aggregate counter
`self.total_messages` and the shared list `self.messages`. -/
structure SessionState where
  connection_messages : ℕ
  total_messages : ℕ
  messages : List WSMessage
deriving DecidableEq

/-- One iteration of the `single_connection_test` receive loop
(lines 124-162). Returns the updated state and whether the loop
continues: a timeout continues unchanged; a `ConnectionClosed` and any
other exception both `break`; a decoded message increments
`connection_messages` and the shared `self.total_messages`, computes
the unfiltered latency and appends to `self.messages`. -/
def loopStep (st : SessionState) : RecvEvent → SessionState × Bool
  | .timeout => (st, true)
  | .closed => (st, false)
  | .decodeError => (st, false)
  | .msg d rt =>
    let latency : Option ℚ :=
      match d.params with
      | some p =>
        match p.data with
        | some pl => pl.timestamp.map fun ts => (rt - ts / 1000) * 1000
        | none => none
      | none => none
    ({ connection_messages := st.connection_messages + 1,
       total_messages := st.total_messages + 1,
       messages := st.messages ++
         [{ timestamp := rt,
            message_type := d.method.getD "unknown",
            channel := ((d.params.bind fun p => p.channel).getD "unknown"),
            latency := latency }] }, true)

/-- The `single_connection_test` receive loop run over the sequence of
iteration events that occur before the duration bound or stop signal
would end it: folds `loopStep`, stopping early when an iteration
signals a break. -/
def sessionLoop : List RecvEvent → SessionState → SessionState
  | [], st => st
  | e :: rest, st =>
    match loopStep st e with
    | (st1, true) => sessionLoop rest st1
    | (st1, false) => st1

/-- Recognizes a successfully-received-and-decoded message event. -/
def RecvEvent.isMsg : RecvEvent → Bool
  | .msg _ _ => true
  | _ => false

/-- A minimal decoded message with no params, as concrete input. -/
def plainMsg : WsData := ⟨none, none, 0⟩

/-- Five receive-loop iterations in which the third raises a decode
error, the concrete scenario of the claim. -/
def fiveWithError : List RecvEvent :=
  [.msg plainMsg 0, .msg plainMsg 0, .decodeError, .msg plainMsg 0, .msg plainMsg 0]

lemma sessionLoop_nonbreak_cons (e : RecvEvent) (rest : List RecvEvent)
    (st : SessionState) (h : e.isMsg = true ∨ e = .timeout) :
    sessionLoop (e :: rest) st = sessionLoop rest (loopStep st e).1 := by
  cases e with
  | msg d rt => rfl
  | timeout => rfl
  | closed => simp [RecvEvent.isMsg] at h
  | decodeError => simp [RecvEvent.isMsg] at h

lemma loopStep_fst_connection_messages (st : SessionState) (e : RecvEvent) :
    (loopStep st e).1.connection_messages
      = st.connection_messages + (if e.isMsg then 1 else 0) := by
  cases e <;> simp [loopStep, RecvEvent.isMsg]

/-- C2 counterexample: on the five-message scenario where message 3
raises a decode error, the loop body hits `except Exception: break`
(lines 160-162), so only messages 1 and 2 are counted — the claim says
all of 1, 2, 4 and 5 are (count 4). -/
theorem C2_counterexample :
    (sessionLoop fiveWithError ⟨0, 0, []⟩).connection_messages = 2 ∧ (2 : ℕ) ≠ 4 := by
  constructor
  · rfl
  · decide

/-- C2 (amended): a decode/processing error on a single message
terminates the session receive loop, exactly like a transport-level
connection close: for any run whose iterations before the error are
decoded messages or timeouts, the loop stops at the error with the
state it had just before it (events after the error are never
processed), and that state counts exactly the messages preceding the
error. -/
theorem C2_decode_error_breaks (pre post : List RecvEvent) (st : SessionState)
    (h : ∀ e ∈ pre, e.isMsg = true ∨ e = .timeout) :
    sessionLoop (pre ++ RecvEvent.decodeError :: post) st = sessionLoop pre st ∧
    (sessionLoop pre st).connection_messages
      = st.connection_messages + pre.countP RecvEvent.isMsg := by
  induction pre generalizing st with
  | nil =>
    refine ⟨rfl, by simp [sessionLoop]⟩
  | cons e rest ih =>
    have he := h e (List.mem_cons_self e rest)
    have hrest : ∀ x ∈ rest, x.isMsg = true ∨ x = .timeout :=
      fun x hx => h x (List.mem_cons_of_mem e hx)
    have h1 : sessionLoop ((e :: rest) ++ RecvEvent.decodeError :: post) st
        = sessionLoop (rest ++ RecvEvent.decodeError :: post) (loopStep st e).1 := by
      simpa using sessionLoop_nonbreak_cons e (rest ++ RecvEvent.decodeError :: post) st he
    have h2 : sessionLoop (e :: rest) st = sessionLoop rest (loopStep st e).1 :=
      sessionLoop_nonbreak_cons e rest st he
    obtain ⟨ihA, ihB⟩ := ih (loopStep st e).1 hrest
    refine ⟨by rw [h1, ihA, h2], ?_⟩
    rw [h2, ihB, loopStep_fst_connection_messages, List.countP_cons]
    cases hm : e.isMsg
    · simp [hm]
    · simp [hm]
      omega

/-- C2 witness: the amended break behaviour on the concrete prefix of
two decoded messages. -/
theorem C2_decode_error_breaks_witness :
    sessionLoop ([RecvEvent.msg plainMsg 0, RecvEvent.msg plainMsg 0]
        ++ RecvEvent.decodeError :: [RecvEvent.msg plainMsg 0]) ⟨0, 0, []⟩
      = sessionLoop [RecvEvent.msg plainMsg 0, RecvEvent.msg plainMsg 0] ⟨0, 0, []⟩ ∧
    (sessionLoop [RecvEvent.msg plainMsg 0, RecvEvent.msg plainMsg 0]
        ⟨0, 0, []⟩).connection_messages
      = 0 + ([RecvEvent.msg plainMsg 0, RecvEvent.msg plainMsg 0]).countP RecvEvent.isMsg :=
  C2_decode_error_breaks [RecvEvent.msg plainMsg 0, RecvEvent.msg plainMsg 0]
    [RecvEvent.msg plainMsg 0] ⟨0, 0, []⟩ (by decide)

/-- C4 counterexample: one iteration of a session receive loop on a
decoded message leaves the loop still running (continue flag `true`)
yet has already changed the shared aggregate counter
`self.total_messages` from 0 to 1 (line 131), refuting the claim that
aggregate counters are written only by the coordinator after the
session has completed. -/
theorem C4_counterexample :
    (loopStep ⟨0, 0, []⟩ (RecvEvent.msg plainMsg 0)).2 = true ∧
    (loopStep ⟨0, 0, []⟩ (RecvEvent.msg plainMsg 0)).1.total_messages = 1 ∧
    (1 : ℕ) ≠ 0 := by
  refine ⟨rfl, rfl, by decide⟩

/-- C4 (amended): sessions write the shared aggregate counters directly
while their receive loops are still executing: every decoded message
immediately increments the shared `self.total_messages` inside the loop
body, which then continues; there is no coordinator-side fold over
completed-session snapshots. -/
theorem C4_sessions_write_aggregate (st : SessionState) (d : WsData) (rt : ℚ) :
    (loopStep st (RecvEvent.msg d rt)).1.total_messages = st.total_messages + 1 ∧
    (loopStep st (RecvEvent.msg d rt)).2 = true := by
  constructor <;> rfl

/-- The prefix of a session event list that the receive loop actually
processes as messages: message events up to (excluding) the first
connection close or decode error, which break the loop. -/
def processedMsgs : List RecvEvent → List RecvEvent
  | [] => []
  | .timeout :: rest => processedMsgs rest
  | .closed :: _ => []
  | .decodeError :: _ => []
  | .msg d rt :: rest => .msg d rt :: processedMsgs rest

/-- One shared-counter write `self.total_messages += 1`, as executed
for each processed message of any session. -/
def aggStep (total : ℕ) (_e : ℕ × RecvEvent) : ℕ := total + 1

/-- The value of the shared `self.total_messages` after a run that
performs the given session-tagged message-processing steps in order,
starting from 0. -/
def runTotal (steps : List (ℕ × RecvEvent)) : ℕ := steps.foldl aggStep 0

/-- Helper for `taggedJoin`: tags each trace's processed messages with
consecutive session indices starting at `i`. -/
def taggedJoinFrom (i : ℕ) : List (List RecvEvent) → List (ℕ × RecvEvent)
  | [] => []
  | t :: rest => ((processedMsgs t).map fun e => (i, e)) ++ taggedJoinFrom (i + 1) rest

/-- All message-processing steps of a stress run, tagged with their
session index, in the canonical per-session order; an interleaved
concurrent schedule is any permutation of this list that is a valid
merge of the per-session orders. -/
def taggedJoin (traces : List (List RecvEvent)) : List (ℕ × RecvEvent) :=
  taggedJoinFrom 0 traces

lemma runTotal_eq_length (steps : List (ℕ × RecvEvent)) :
    runTotal steps = steps.length := by
  suffices h : ∀ (l : List (ℕ × RecvEvent)) (n : ℕ), l.foldl aggStep n = n + l.length by
    simpa [runTotal] using h steps 0
  intro l
  induction l with
  | nil => intro n; simp
  | cons e rest ih =>
    intro n
    simp [aggStep, ih]
    omega

lemma processedMsgs_length (t : List RecvEvent) (st : SessionState) :
    (sessionLoop t st).connection_messages
      = st.connection_messages + (processedMsgs t).length := by
  induction t generalizing st with
  | nil => simp [sessionLoop, processedMsgs]
  | cons e rest ih =>
    cases e with
    | msg d rt =>
      have h := ih ((loopStep st (.msg d rt)).1)
      simp only [sessionLoop, loopStep] at h ⊢
      simp [processedMsgs, h]
      omega
    | timeout => simpa [sessionLoop, loopStep, processedMsgs] using ih st
    | closed => simp [sessionLoop, loopStep, processedMsgs]
    | decodeError => simp [sessionLoop, loopStep, processedMsgs]

/-- C7: the aggregate message count of a stress run equals the exact
sum of the per-session message counts, for every execution schedule:
any permutation of the tagged per-session processing steps (hence any
interleaved order of session completion) drives the shared total to the
sum of the counts that the individual session loops report. The result
is deterministic given the per-session event lists. -/
theorem C7_aggregate_is_sum (traces : List (List RecvEvent))
    (steps : List (ℕ × RecvEvent)) (hperm : List.Perm steps (taggedJoin traces)) :
    runTotal steps
      = (traces.map fun t => (sessionLoop t ⟨0, 0, []⟩).connection_messages).sum := by
  rw [runTotal_eq_length, hperm.length_eq]
  have h : ∀ t : List RecvEvent,
      (sessionLoop t ⟨0, 0, []⟩).connection_messages = (processedMsgs t).length := by
    intro t
    simpa using processedMsgs_length t ⟨0, 0, []⟩
  simp only [h, taggedJoin]
  suffices hlen : ∀ (l : List (List RecvEvent)) (i : ℕ),
      (taggedJoinFrom i l).length = (l.map fun t => (processedMsgs t).length).sum by
    exact hlen traces 0
  intro l
  induction l with
  | nil => intro i; simp [taggedJoinFrom]
  | cons t rest ih =>
    intro i
    simp [taggedJoinFrom, ih]

/-- C7 witness: a two-session run, with the two sessions' steps
interleaved in an order different from the canonical per-session
concatenation, still totals 2 + 1. -/
theorem C7_aggregate_is_sum_witness :
    runTotal [(1, RecvEvent.msg plainMsg 0), (0, RecvEvent.msg plainMsg 0),
              (0, RecvEvent.msg plainMsg 0)]
      = ([[RecvEvent.msg plainMsg 0, RecvEvent.msg plainMsg 0],
          [RecvEvent.msg plainMsg 0]].map
          fun t => (sessionLoop t ⟨0, 0, []⟩).connection_messages).sum :=
  C7_aggregate_is_sum
    [[RecvEvent.msg plainMsg 0, RecvEvent.msg plainMsg 0], [RecvEvent.msg plainMsg 0]]
    [(1, RecvEvent.msg plainMsg 0), (0, RecvEvent.msg plainMsg 0),
     (0, RecvEvent.msg plainMsg 0)]
    (by decide)

/-- Outcome of one iteration of the `reconnection_test` outer loop
(lines 432-454), with idealized timing in whole seconds (connect,
authenticate and subscribe take no time; the inner drain loop exits as
soon as its interval has elapsed):
`drained msgs` — the connection succeeded and the inner drain loop ran
the full `disconnection_interval`, receiving `msgs` messages;
`connectFail t` — establishing the connection raised after `t` seconds;
`drainError t` — the connected session's drain raised (e.g. the
transport closed) after `t` seconds of the interval. -/
inductive ConnOutcome where
  | drained (msgs : ℕ)
  | connectFail (t : ℕ)
  | drainError (t : ℕ)
deriving DecidableEq

/-- Driver state of `reconnection_test`: seconds elapsed since
`start_time`, and the shared counter `self.reconnection_count`. -/
structure ReconState where
  elapsed : ℕ
  reconnection_count : ℕ
deriving DecidableEq

/-- The `reconnection_test` outer loop: while elapsed time is below
`total_duration`, run one connect/subscribe/drain cycle. A full drain
advances time by `interval` and then increments
`self.reconnection_count` (line 450); any exception — from connecting
or from the drain — skips the increment, and the driver sleeps 1 s
before retrying (lines 452-454). The outcome list supplies one entry
per attempted cycle. -/
def reconLoop (interval duration : ℕ) : List ConnOutcome → ReconState → ReconState
  | [], st => st
  | o :: rest, st =>
    if st.elapsed < duration then
      match o with
      | .drained _ =>
        reconLoop interval duration rest
          ⟨st.elapsed + interval, st.reconnection_count + 1⟩
      | .connectFail t =>
        reconLoop interval duration rest ⟨st.elapsed + t + 1, st.reconnection_count⟩
      | .drainError t =>
        reconLoop interval duration rest ⟨st.elapsed + t + 1, st.reconnection_count⟩
    else st

/-- C3 counterexample: with `disconnect_interval = 10` and
`total_duration = 25`, a connected session whose drain loop exits by an
error 5 seconds in leaves `self.reconnection_count` at 0 — the claim
that every drain-loop exit increments the counter would give 1. -/
theorem C3_counterexample :
    reconLoop 10 25 [ConnOutcome.drainError 5] ⟨0, 0⟩ = ⟨6, 0⟩ ∧
    (0 : ℕ) ≠ 1 := by
  exact ⟨rfl, by decide⟩

/-- C3 (amended): while time remains, a drain loop that exits because
`disconnect_interval` elapsed increments the reconnection counter
exactly once before the driver goes on to reconnect, but a drain loop
that exits by an error does not increment it — the driver only logs,
sleeps 1 s and retries. -/
theorem C3_increment_on_interval_only (interval duration : ℕ)
    (rest : List ConnOutcome) (st : ReconState) (m t : ℕ)
    (h : st.elapsed < duration) :
    reconLoop interval duration (ConnOutcome.drained m :: rest) st
      = reconLoop interval duration rest
          ⟨st.elapsed + interval, st.reconnection_count + 1⟩ ∧
    reconLoop interval duration (ConnOutcome.drainError t :: rest) st
      = reconLoop interval duration rest
          ⟨st.elapsed + t + 1, st.reconnection_count⟩ := by
  constructor <;> simp [reconLoop, h]

/-- C3 witness: the amended step equations at the concrete parameters
of the reconnection scenario. -/
theorem C3_increment_on_interval_only_witness :
    reconLoop 10 25 [ConnOutcome.drained 7] ⟨0, 0⟩ = reconLoop 10 25 [] ⟨10, 1⟩ ∧
    reconLoop 10 25 [ConnOutcome.drainError 5] ⟨0, 0⟩ = reconLoop 10 25 [] ⟨6, 0⟩ :=
  C3_increment_on_interval_only 10 25 [] ⟨0, 0⟩ 7 5 (by decide)

/-- C5 counterexample: with `total_duration = 25` and
`disconnect_interval = 10` and no failures, the driver runs three full
10-second intervals — the inner drain loop is bounded only by the
interval, never cut short at `total_duration` — so the run ends at
elapsed time 30, not 25, and a partial interval never occurs; the
claimed termination once elapsed time reaches `total_duration = 25`
fails. -/
theorem C5_counterexample :
    reconLoop 10 25 (List.replicate 4 (ConnOutcome.drained 0)) ⟨0, 0⟩ = ⟨30, 3⟩ ∧
    (30 : ℕ) ≠ 25 := by
  exact ⟨rfl, by decide⟩

/-- C5 (amended): for `total_duration = 25`, `disconnect_interval = 10`
and no connect failures, the driver performs exactly 3 full intervals
and no partial one (a fourth cycle is never started), terminating at
elapsed time 30 with `reconnection_count = 3`, which satisfies the
claimed lower bound `reconnection_count ≥ 2`. -/
theorem C5_three_full_intervals :
    reconLoop 10 25 (List.replicate 3 (ConnOutcome.drained 0)) ⟨0, 0⟩ = ⟨30, 3⟩ ∧
    reconLoop 10 25 (List.replicate 4 (ConnOutcome.drained 0)) ⟨0, 0⟩ = ⟨30, 3⟩ ∧
    2 ≤ 3 := by
  exact ⟨rfl, rfl, by decide⟩

/-- A stored tick record, the `tick_info` dict built by
`tick_by_tick_delay_test` (lines 288-299). -/
structure TickInfo where
  tick_number : ℕ
  channel : String
  receive_time : ℚ
  server_timestamp : Option ℚ
  delay_ms : Option ℚ
  data_size : ℕ
  price : Option ℚ
  volume : Option ℚ
  bid_price : Option ℚ
  ask_price : Option ℚ
deriving DecidableEq

/-- Python boolean-or over two optional numbers, as in
`tick_data_point.get('last_price') or tick_data_point.get('price')`:
the left value is kept unless it is missing or falsy (0). -/
def pyOr (a b : Option ℚ) : Option ℚ :=
  match a with
  | some x => if x = 0 then b else some x
  | none => b

/-- Builds the `tick_info` record for one channel message: the delay is
the raw value `(receive_time - timestamp/1000) * 1000` with no
plausibility filter (negative values are stored as-is), `price` is
`last_price or price`, and `data_size` is `len(str(data))`. -/
def mkTickInfo (tickCount : ℕ) (channel : String) (dp : WsPayload)
    (strLen : ℕ) (rt : ℚ) : TickInfo :=
  { tick_number := tickCount,
    channel := channel,
    receive_time := rt,
    server_timestamp := dp.timestamp,
    delay_ms := dp.timestamp.map fun ts => (rt - ts / 1000) * 1000,
    data_size := strLen,
    price := pyOr dp.last_price dp.price,
    volume := dp.volume,
    bid_price := dp.best_bid_price,
    ask_price := dp.best_ask_price }

/-- Appends a record to the list stored under the first occurrence of
`key` in the per-channel association list (the `tick_data` dict, whose
keys are the subscribed channels in subscription order). -/
def appendAt (td : List (String × List TickInfo)) (key : String)
    (info : TickInfo) : List (String × List TickInfo) :=
  match td with
  | [] => []
  | (k, v) :: rest =>
    if k = key then (k, v ++ [info]) :: rest
    else (k, v) :: appendAt rest key info

/-- Contiguous-substring check over character lists: true iff the first
list occurs as a contiguous block inside the second. -/
def infixCheck : List Char → List Char → Bool
  | n, [] => n.isEmpty
  | n, h :: t => n.isPrefixOf (h :: t) || infixCheck n t

/-- Python substring containment `sub in s`. -/
def pyInStr (sub s : String) : Bool := infixCheck sub.toList s.toList

/-- The channel-routing of `tick_by_tick_delay_test` (lines 302-305):
`for ch in channels: if ch in channel: tick_data[ch].append(...); break`
— the record goes to the first subscribed channel, in subscription-list
order, whose name is a substring of the message's channel field;
with no match the record is dropped. -/
def storeTick (channels : List String) (td : List (String × List TickInfo))
    (channel : String) (info : TickInfo) : List (String × List TickInfo) :=
  match channels.find? (fun ch => pyInStr ch channel) with
  | some ch => appendAt td ch info
  | none => td

/-- State of the tick-collection loop: the per-channel `tick_data`
association list and the global `tick_count`. -/
structure TickState where
  tick_data : List (String × List TickInfo)
  tick_count : ℕ
deriving DecidableEq

/-- One iteration of the `tick_by_tick_delay_test` receive loop
(lines 268-315). A timeout continues; every exception — including a
transport close — is swallowed by `except Exception: continue`; a
decoded message always increments the global `tick_count`, and is
stored only when it has `params` with a `channel` and a `data` object
(a missing `data` key raises a swallowed KeyError after the count). -/
def tickStep (channels : List String) (st : TickState) : RecvEvent → TickState
  | .timeout => st
  | .closed => st
  | .decodeError => st
  | .msg d rt =>
    let tickCount := st.tick_count + 1
    match d.params with
    | none => ⟨st.tick_data, tickCount⟩
    | some p =>
      match p.channel with
      | none => ⟨st.tick_data, tickCount⟩
      | some ch =>
        match p.data with
        | none => ⟨st.tick_data, tickCount⟩
        | some dp =>
          ⟨storeTick channels st.tick_data ch
              (mkTickInfo tickCount ch dp d.strLen rt), tickCount⟩

lemma find?_first_match (pre post : List String) (ch c : String)
    (hmatch : pyInStr ch c = true)
    (hpre : ∀ x ∈ pre, pyInStr x c = false) :
    (pre ++ ch :: post).find? (fun x => pyInStr x c) = some ch := by
  induction pre with
  | nil => simp [List.find?, hmatch]
  | cons y rest ih =>
    have hy : pyInStr y c = false := hpre y (List.mem_cons_self y rest)
    have hrest : ∀ x ∈ rest, pyInStr x c = false :=
      fun x hx => hpre x (List.mem_cons_of_mem y hx)
    simpa [List.find?, hy] using ih hrest

/-- C10: a channel message is appended to the list of the first
subscribed channel, in subscription-list order, whose name is a
substring of the message's channel field (membership by substring
containment, not equality), and a channel message matching no
subscribed channel still increments the global tick count but is
stored in no per-channel list. -/
theorem C10_channel_routing :
    (∀ (pre post : List String) (ch : String) (st : TickState) (d : WsData)
        (rt : ℚ) (p : WsParams) (c : String) (dp : WsPayload),
      d.params = some p → p.channel = some c → p.data = some dp →
      pyInStr ch c = true → (∀ x ∈ pre, pyInStr x c = false) →
      tickStep (pre ++ ch :: post) st (RecvEvent.msg d rt)
        = ⟨appendAt st.tick_data ch
              (mkTickInfo (st.tick_count + 1) c dp d.strLen rt),
           st.tick_count + 1⟩) ∧
    (∀ (channels : List String) (st : TickState) (d : WsData) (rt : ℚ)
        (p : WsParams) (c : String) (dp : WsPayload),
      d.params = some p → p.channel = some c → p.data = some dp →
      (∀ x ∈ channels, pyInStr x c = false) →
      tickStep channels st (RecvEvent.msg d rt) = ⟨st.tick_data, st.tick_count + 1⟩) := by
  constructor
  · intro pre post ch st d rt p c dp hp hc hd hmatch hpre
    rcases d with ⟨m, dparams, n⟩
    cases hp
    rcases p with ⟨pc, pd⟩
    cases hc
    cases hd
    simp only [tickStep, storeTick]
    rw [find?_first_match pre post ch c hmatch hpre]
  · intro channels st d rt p c dp hp hc hd hnone
    rcases d with ⟨m, dparams, n⟩
    cases hp
    rcases p with ⟨pc, pd⟩
    cases hc
    cases hd
    simp only [tickStep, storeTick]
    have : channels.find? (fun x => pyInStr x c) = none := by
      rw [List.find?_eq_none]
      intro x hx
      simp [hnone x hx]
    rw [this]

/-- C10 witness: the subscribed prefix "tick" (after the non-matching
"book") captures a message on channel "ticker.BTC", and a message on
channel "trades.BTC" matching neither subscription is counted but not
stored. -/
theorem C10_channel_routing_witness :
    tickStep ["book", "tick"] ⟨[("book", []), ("tick", [])], 0⟩
        (RecvEvent.msg ⟨none, some ⟨some "ticker.BTC",
            some ⟨none, none, none, none, none, none⟩⟩, 7⟩ 0)
      = ⟨appendAt [("book", []), ("tick", [])] "tick"
            (mkTickInfo 1 "ticker.BTC" ⟨none, none, none, none, none, none⟩ 7 0), 1⟩ ∧
    tickStep ["book", "tick"] ⟨[("book", []), ("tick", [])], 0⟩
        (RecvEvent.msg ⟨none, some ⟨some "trades.BTC",
            some ⟨none, none, none, none, none, none⟩⟩, 7⟩ 0)
      = ⟨[("book", []), ("tick", [])], 1⟩ := by
  constructor
  · exact C10_channel_routing.1 ["book"] [] "tick" ⟨[("book", []), ("tick", [])], 0⟩
      ⟨none, some ⟨some "ticker.BTC", some ⟨none, none, none, none, none, none⟩⟩, 7⟩ 0
      ⟨some "ticker.BTC", some ⟨none, none, none, none, none, none⟩⟩ "ticker.BTC"
      ⟨none, none, none, none, none, none⟩ rfl rfl rfl (by decide) (by decide)
  · exact C10_channel_routing.2 ["book", "tick"] ⟨[("book", []), ("tick", [])], 0⟩
      ⟨none, some ⟨some "trades.BTC", some ⟨none, none, none, none, none, none⟩⟩, 7⟩ 0
      ⟨some "trades.BTC", some ⟨none, none, none, none, none, none⟩⟩ "trades.BTC"
      ⟨none, none, none, none, none, none⟩ rfl rfl rfl (by decide)

/-- The delay-bearing values of a channel's records:
`[tick['delay_ms'] for tick in ticks if tick['delay_ms'] is not None]`
(line 344) — no sign or plausibility filter, negative delays stay. -/
def channelDelays (ticks : List TickInfo) : List ℚ :=
  ticks.filterMap fun t => t.delay_ms

/-- The fixed-boundary delay histogram of `_analyze_tick_data`
(lines 354-360): bucket counts over `[0,50) [50,100) [100,200)
[200,500) [500,∞)` ms. -/
def delayRanges (delays : List ℚ) : List (String × ℕ) :=
  [("0-50ms", (delays.filter fun d => decide (0 ≤ d ∧ d < 50)).length),
   ("50-100ms", (delays.filter fun d => decide (50 ≤ d ∧ d < 100)).length),
   ("100-200ms", (delays.filter fun d => decide (100 ≤ d ∧ d < 200)).length),
   ("200-500ms", (delays.filter fun d => decide (200 ≤ d ∧ d < 500)).length),
   ("500ms+", (delays.filter fun d => decide (500 ≤ d)).length)]

/-- Each bucket's share as a percentage of delay-bearing records:
`(count / len(delays)) * 100` (line 364). -/
def delayPercentages (delays : List ℚ) : List (String × ℚ) :=
  (delayRanges delays).map fun pr => (pr.1, (pr.2 : ℚ) / (delays.length : ℚ) * 100)

/-- The squared value computed by `_calculate_std_dev` (lines 418-424):
the population variance; the source reports `variance ** 0.5`, whose
square root is irrational in general and is a display-layer concern. -/
def calculateVariance (values : List ℚ) : ℚ :=
  if values.isEmpty then 0
  else
    let mean := values.sum / (values.length : ℚ)
    (values.map fun x => (x - mean) ^ 2).sum / (values.length : ℚ)

/-- Per-channel delay statistics (lines 346-365), computed only over
records with a valid delay. -/
structure DelayStats where
  avg : ℚ
  median : ℚ
  minDelay : ℚ
  maxDelay : ℚ
  variance : ℚ
  ranges : List (String × ℕ)
  percentages : List (String × ℚ)
deriving DecidableEq

/-- Per-channel message-size statistics (lines 368-373). -/
structure SizeStats where
  avg : ℚ
  minSize : ℕ
  maxSize : ℕ
deriving DecidableEq

/-- Per-channel price-movement statistics (lines 376-386), present only
when at least two price-bearing records exist. -/
structure PriceStats where
  total_updates : ℕ
  change_count : ℕ
  change_frequency : ℚ
  avg_change : Option ℚ
deriving DecidableEq

/-- Statistics reported for one channel with at least one record. -/
structure ChannelStats where
  total_ticks : ℕ
  ticks_per_second : ℚ
  delayStats : Option DelayStats
  sizeStats : Option SizeStats
  priceStats : Option PriceStats
deriving DecidableEq

/-- What `_analyze_tick_data` reports for one channel: either the
"No data received" entry (line 336) or the statistics block. -/
inductive ChannelResult where
  | noData
  | stats (s : ChannelStats)
deriving DecidableEq

/-- The four-tier qualitative rating band (lines 406-414). -/
def performanceRating (avg : ℚ) : String :=
  if avg < 50 then "EXCELLENT"
  else if avg < 100 then "GOOD"
  else if avg < 200 then "FAIR"
  else "POOR"

/-- The cross-channel rollup (lines 396-416). -/
structure OverallStats where
  total_with_delay : ℕ
  avg_delay : ℚ
  rating : String
deriving DecidableEq

/-- The full value `_analyze_tick_data` reports. -/
structure Report where
  total_ticks : ℕ
  avg_ticks_per_second : ℚ
  channels : List (String × ChannelResult)
  overall : Option OverallStats
deriving DecidableEq

/-- Analysis of one channel's record list (lines 334-393): the empty
list reports "no data"; otherwise count, throughput, and the guarded
delay, size and price statistic blocks. -/
def analyzeChannel (duration : ℤ) (ticks : List TickInfo) : ChannelResult :=
  if ticks.isEmpty then .noData
  else
    let delays := channelDelays ticks
    let dataSizes : List ℕ := ticks.map fun t => t.data_size
    let prices := ticks.filterMap fun t => t.price
    .stats
      { total_ticks := ticks.length,
        ticks_per_second := (ticks.length : ℚ) / (duration : ℚ),
        delayStats :=
          if delays.isEmpty then none
          else some
            { avg := delays.sum / (delays.length : ℚ),
              median := (delays.insertionSort (· ≤ ·)).getD (delays.length / 2) 0,
              minDelay := delays.min?.getD 0,
              maxDelay := delays.max?.getD 0,
              variance := calculateVariance delays,
              ranges := delayRanges delays,
              percentages := delayPercentages delays },
        sizeStats :=
          if dataSizes.isEmpty then none
          else some
            { avg := ((dataSizes.map fun n => (n : ℚ)).sum) / (dataSizes.length : ℚ),
              minSize := dataSizes.min?.getD 0,
              maxSize := dataSizes.max?.getD 0 },
        priceStats :=
          if 1 < prices.length then
            let changes := List.zipWith (fun a b => |b - a|) prices prices.tail
            let nonZero := changes.filter fun c => decide (0 < c)
            some
              { total_updates := prices.length,
                change_count := nonZero.length,
                change_frequency := (nonZero.length : ℚ) / (prices.length : ℚ) * 100,
                avg_change :=
                  if nonZero.isEmpty then none
                  else some (nonZero.sum / (nonZero.length : ℚ)) }
          else none }

/-- The analysis pass `_analyze_tick_data(tick_data, duration)`
(lines 323-416). The division `total_ticks / duration` on line 332
raises `ZeroDivisionError` when `duration = 0` (modelled as `none`);
otherwise a report is always produced: per-channel results in input
order, and the overall rollup when any record carries a delay. -/
def analyzeTickData (tickData : List (String × List TickInfo))
    (duration : ℤ) : Option Report :=
  if duration = 0 then none
  else
    let totalTicks := (tickData.map fun p => p.2.length).sum
    let allDelays := (tickData.map fun p => channelDelays p.2).flatten
    some
      { total_ticks := totalTicks,
        avg_ticks_per_second := (totalTicks : ℚ) / (duration : ℚ),
        channels := tickData.map fun p => (p.1, analyzeChannel duration p.2),
        overall :=
          if allDelays.isEmpty then none
          else
            let avg := allDelays.sum / (allDelays.length : ℚ)
            some
              { total_with_delay := allDelays.length,
                avg_delay := avg,
                rating := performanceRating avg } }

/-- C8 counterexample: called with `duration = 0` — a value the CLI
accepts — `_analyze_tick_data` raises `ZeroDivisionError` on
`total_ticks / duration` (line 332) even for an empty channel, so it
does not produce a result for every input. -/
theorem C8_counterexample :
    analyzeTickData [("ticker.BTC-PERPETUAL.100ms", [])] 0 = none := by
  simp [analyzeTickData]

/-- C8 (amended): for every nonzero duration the analyzer is total — it
returns a report for every input, never mutating it (it is a pure
function of the records) — and every channel with an empty record list
appears in the report as a "no data" entry. For duration 0 the division
on line 332 raises. -/
theorem C8_no_data_on_empty (tickData : List (String × List TickInfo))
    (duration : ℤ) (hdur : duration ≠ 0) :
    (∃ r, analyzeTickData tickData duration = some r) ∧
    (∀ (r : Report) (ch : String), analyzeTickData tickData duration = some r →
        (ch, ([] : List TickInfo)) ∈ tickData →
        (ch, ChannelResult.noData) ∈ r.channels) := by
  constructor
  · unfold analyzeTickData
    rw [if_neg hdur]
    exact ⟨_, rfl⟩
  · intro r ch hr hch
    simp only [analyzeTickData, if_neg hdur, Option.some.injEq] at hr
    subst hr
    simp only [List.mem_map]
    exact ⟨(ch, []), hch, rfl⟩

/-- C8 witness: the amended totality and no-data behaviour at the
concrete input of one empty channel and duration 60. -/
theorem C8_no_data_on_empty_witness :
    (∃ r, analyzeTickData [("trades.BTC-PERPETUAL.100ms", [])] 60 = some r) ∧
    (∀ (r : Report) (ch : String),
        analyzeTickData [("trades.BTC-PERPETUAL.100ms", [])] 60 = some r →
        (ch, ([] : List TickInfo)) ∈ [("trades.BTC-PERPETUAL.100ms", ([] : List TickInfo))] →
        (ch, ChannelResult.noData) ∈ r.channels) :=
  C8_no_data_on_empty [("trades.BTC-PERPETUAL.100ms", [])] 60 (by decide)

lemma sum_delayRanges (delays : List ℚ) :
    ((delayRanges delays).map Prod.snd).sum
      = (delays.filter fun d => decide (0 ≤ d)).length := by
  induction delays with
  | nil => simp [delayRanges]
  | cons d rest ih =>
    simp only [delayRanges, List.map_cons, List.map_nil, List.sum_cons, List.sum_nil,
      add_zero, List.filter_cons] at ih ⊢
    simp at ih
    rcases lt_or_le d 0 with h | h0
    · have n0 : ¬ (0 ≤ d) := not_le.mpr h
      have n50 : ¬ (50 ≤ d) := fun hc => n0 (le_trans (by norm_num) hc)
      have n100 : ¬ (100 ≤ d) := fun hc => n0 (le_trans (by norm_num) hc)
      have n200 : ¬ (200 ≤ d) := fun hc => n0 (le_trans (by norm_num) hc)
      have n500 : ¬ (500 ≤ d) := fun hc => n0 (le_trans (by norm_num) hc)
      simp [n0, n50, n100, n200, n500]
      omega
    · rcases lt_or_le d 50 with h50 | h50
      · have n50 : ¬ (50 ≤ d) := not_le.mpr h50
        have n100 : ¬ (100 ≤ d) := fun hc => n50 (le_trans (by norm_num) hc)
        have n200 : ¬ (200 ≤ d) := fun hc => n50 (le_trans (by norm_num) hc)
        have n500 : ¬ (500 ≤ d) := fun hc => n50 (le_trans (by norm_num) hc)
        simp [h0, h50, n50, n100, n200, n500]
        omega
      · rcases lt_or_le d 100 with h100 | h100
        · have nlt50 : ¬ (d < 50) := not_lt.mpr h50
          have n100 : ¬ (100 ≤ d) := not_le.mpr h100
          have n200 : ¬ (200 ≤ d) := fun hc => n100 (le_trans (by norm_num) hc)
          have n500 : ¬ (500 ≤ d) := fun hc => n100 (le_trans (by norm_num) hc)
          simp [h0, h50, h100, nlt50, n100, n200, n500]
          omega
        · rcases lt_or_le d 200 with h200 | h200
          · have nlt50 : ¬ (d < 50) := fun hc => absurd h100 (not_le.mpr (by linarith))
            have nlt100 : ¬ (d < 100) := not_lt.mpr h100
            have n200 : ¬ (200 ≤ d) := not_le.mpr h200
            have n500 : ¬ (500 ≤ d) := fun hc => n200 (le_trans (by norm_num) hc)
            have h50le : (50 : ℚ) ≤ d := by linarith
            simp [h0, h200, h100, h50le, nlt50, nlt100, n200, n500]
            omega
          · rcases lt_or_le d 500 with h500 | h500
            · have nlt50 : ¬ (d < 50) := fun hc => by linarith
              have nlt100 : ¬ (d < 100) := fun hc => by linarith
              have nlt200 : ¬ (d < 200) := not_lt.mpr h200
              have n500 : ¬ (500 ≤ d) := not_le.mpr h500
              have h50le : (50 : ℚ) ≤ d := by linarith
              have h100le : (100 : ℚ) ≤ d := by linarith
              simp [h0, h500, h200, h50le, h100le, nlt50, nlt100, nlt200, n500]
              omega
            · have nlt50 : ¬ (d < 50) := fun hc => by linarith
              have nlt100 : ¬ (d < 100) := fun hc => by linarith
              have nlt200 : ¬ (d < 200) := fun hc => by linarith
              have nlt500 : ¬ (d < 500) := not_lt.mpr h500
              have h50le : (50 : ℚ) ≤ d := by linarith
              have h100le : (100 : ℚ) ≤ d := by linarith
              have h200le : (200 : ℚ) ≤ d := by linarith
              simp [h0, h500, h50le, h100le, h200le, nlt50, nlt100, nlt200, nlt500]
              omega

lemma filter_nonneg_lt_length (delays : List ℚ) (d : ℚ)
    (hd : d ∈ delays) (hneg : d < 0) :
    (delays.filter fun x => decide (0 ≤ x)).length < delays.length := by
  rw [List.length_filter_lt_length_iff_exists]
  refine ⟨d, hd, ?_⟩
  simp [not_le.mpr hneg]

lemma sum_delayPercentages (delays : List ℚ) :
    ((delayPercentages delays).map Prod.snd).sum
      = ((((delayRanges delays).map Prod.snd).sum : ℚ) / (delays.length : ℚ)) * 100 := by
  simp [delayPercentages, delayRanges]
  ring

/-- C9: tick records store the raw computed delay with no plausibility
filter, so a negative delay (clock skew) is stored as-is, belongs to
the delay list over which the analyzer computes its mean, median, min
and max, and yet falls into none of the five histogram buckets, all of
which require a nonnegative delay: when a negative delay is present,
the bucket counts sum to strictly fewer than the number of
delay-bearing records and the bucket percentages sum to strictly less
than 100. -/
theorem C9_negative_delays :
    (∀ (n : ℕ) (c : String) (dp : WsPayload) (sl : ℕ) (rt ts : ℚ),
        dp.timestamp = some ts →
        (mkTickInfo n c dp sl rt).delay_ms = some ((rt - ts / 1000) * 1000)) ∧
    (∀ (ticks : List TickInfo) (t : TickInfo) (d : ℚ),
        t ∈ ticks → t.delay_ms = some d → d ∈ channelDelays ticks) ∧
    (∀ (delays : List ℚ) (d : ℚ), d ∈ delays → d < 0 →
        ((delayRanges delays).map Prod.snd).sum < delays.length ∧
        ((delayPercentages delays).map Prod.snd).sum < 100) := by
  refine ⟨?_, ?_, ?_⟩
  · intro n c dp sl rt ts hts
    simp [mkTickInfo, hts]
  · intro ticks t d ht hd
    exact List.mem_filterMap.mpr ⟨t, ht, hd⟩
  · intro delays d hd hneg
    have hlen : (delays.filter fun x => decide (0 ≤ x)).length < delays.length :=
      filter_nonneg_lt_length delays d hd hneg
    have hsum := sum_delayRanges delays
    have hcount : ((delayRanges delays).map Prod.snd).sum < delays.length := by
      omega
    refine ⟨hcount, ?_⟩
    have hL : 0 < (delays.length : ℚ) := by
      have hne : delays ≠ [] := List.ne_nil_of_mem hd
      have : 0 < delays.length := List.length_pos.mpr hne
      exact_mod_cast this
    rw [sum_delayPercentages]
    have hfrac : ((((delayRanges delays).map Prod.snd).sum : ℚ) / (delays.length : ℚ)) < 1 := by
      rw [div_lt_one hL]
      exact_mod_cast hcount
    have := mul_lt_mul_of_pos_right hfrac (by norm_num : (0 : ℚ) < 100)
    simpa using this

/-- C9 witness: the three parts at concrete inputs — a payload with
timestamp 2000 ms received at local time 1 s stores the raw delay
-1000 ms; that delay is in the analyzed delay list; and on the delay
list [-1000, 10] the buckets count 1 of 2 records and the percentages
sum to 50 < 100. -/
theorem C9_negative_delays_witness :
    (mkTickInfo 1 "ticker.BTC" ⟨some 2000, none, none, none, none, none⟩ 5 1).delay_ms
      = some ((1 - 2000 / 1000) * 1000) ∧
    ((-1000 : ℚ) ∈ channelDelays
      [mkTickInfo 1 "ticker.BTC" ⟨some 2000, none, none, none, none, none⟩ 5 1]) ∧
    ((delayRanges [-1000, 10]).map Prod.snd).sum < ([-1000, 10] : List ℚ).length ∧
    ((delayPercentages [-1000, 10]).map Prod.snd).sum < 100 := by
  refine ⟨C9_negative_delays.1 1 "ticker.BTC" ⟨some 2000, none, none, none, none, none⟩
      5 1 2000 rfl, ?_, ?_, ?_⟩
  · have h := C9_negative_delays.2.1
      [mkTickInfo 1 "ticker.BTC" ⟨some 2000, none, none, none, none, none⟩ 5 1]
      (mkTickInfo 1 "ticker.BTC" ⟨some 2000, none, none, none, none, none⟩ 5 1)
      (-1000) (List.mem_singleton_self _) (by norm_num [mkTickInfo])
    exact h
  · exact (C9_negative_delays.2.2 [-1000, 10] (-1000)
      (List.mem_cons_self _ _) (by norm_num)).1
  · exact (C9_negative_delays.2.2 [-1000, 10] (-1000)
      (List.mem_cons_self _ _) (by norm_num)).2

/-- A minimal tick record carrying only a delay, for concrete
histogram inputs. -/
def tickWithDelay (n : ℕ) (d : ℚ) : TickInfo :=
  { tick_number := n, channel := "ticker.BTC-PERPETUAL.100ms", receive_time := 0,
    server_timestamp := none, delay_ms := some d, data_size := 0,
    price := none, volume := none, bid_price := none, ask_price := none }

/-- A channel's records with delays 10, 60, 150 and 600 ms. -/
def c6Ticks : List TickInfo :=
  [tickWithDelay 1 10, tickWithDelay 2 60, tickWithDelay 3 150, tickWithDelay 4 600]

/-- C6: the delay histogram uses the fixed boundaries [0,50) [50,100)
[100,200) [200,500) [500,∞) ms with shares as percentages of
delay-bearing records: on a channel with delays [10, 60, 150, 600] ms
the bucket counts are 1, 1, 1, 0, 1 (each share 25%, 0% for the empty
bucket) and the analyzer's overall average delay is 205 ms. -/
theorem C6_histogram_example :
    delayRanges (channelDelays c6Ticks)
      = [("0-50ms", 1), ("50-100ms", 1), ("100-200ms", 1),
         ("200-500ms", 0), ("500ms+", 1)] ∧
    delayPercentages (channelDelays c6Ticks)
      = [("0-50ms", 25), ("50-100ms", 25), ("100-200ms", 25),
         ("200-500ms", 0), ("500ms+", 25)] ∧
    ((analyzeTickData [("ticker.BTC-PERPETUAL.100ms", c6Ticks)] 60).bind
        fun r => r.overall.map fun o => o.avg_delay) = some 205 := by
  have hdel : channelDelays c6Ticks = [10, 60, 150, 600] := rfl
  refine ⟨?_, ?_, ?_⟩
  · norm_num [delayRanges, hdel, List.filter_cons, List.filter_nil]
  · norm_num [delayPercentages, delayRanges, hdel, List.filter_cons, List.filter_nil]
  · simp only [analyzeTickData, List.map_cons, List.map_nil, hdel]
    norm_num
